import Mathlib

/-!
Shallow embedding of the e-paper display pipeline of
`src/src/drivers/epaper/display.cpp` (bounded job queue, single render
worker, job execution, page composition engine), together with proofs of
the specification's claims about it.

Conventions of the embedding:
* Panel mutation is observable as a list of `DrawOp` values, in the order
  the driver primitives are invoked (`setFullWindow`, `fillScreen`,
  `drawPixel`, ... and `printText` for a U8g2 `setCursor`+`print` pair).
* External collaborators (U8g2 font metrics, the panel's partial-update
  capability, `localtime_r`) are a parameter `Env`; theorems quantify over
  it unless a claim needs a concrete instance.
* Machine integers are modeled as `Int`/`Nat`; on the 128x296 panel the
  16-bit quantities of the source never approach 2^15, so wraparound is
  not modeled.  C integer division (truncation toward zero) is `Int.tdiv`.
  The single `float` of the source (`EpdComponent.value`) is a `Rat`, and
  the `(int16_t)` cast of the source is truncation toward zero.
* The `FreeRTOS` queue of capacity 5 is a `List EpdJob`; the worker loop is
  a step relation where receiving a job and raising `s_isBlockedByTask`
  (lines 81-82) is one atomic step, as is finishing a job and clearing the
  flag (lines 126-127).
-/

namespace Bringer

/-- `display.width()` for `GxEPD2_290_T94_V2` at rotation 0. -/
def EPD_WIDTH : Int := 128

/-- `display.height()` for `GxEPD2_290_T94_V2` at rotation 0. -/
def EPD_HEIGHT : Int := 296

/-- GxEPD color constant. -/
def GxEPD_BLACK : Nat := 0x0000

/-- GxEPD color constant. -/
def GxEPD_WHITE : Nat := 0xFFFF

/-- `config.h` line 79: `constexpr bool ENABLE_PARTIAL_UPDATE = false;`. -/
def ENABLE_PARTIAL_UPDATE : Bool := false

/-- The U8g2 fonts the driver selects between. -/
inductive Font where
  | profont29
  | profont17
  | profont15
  | profont12
deriving DecidableEq

/-- External collaborators of the display core: U8g2 font metrics, the
panel's partial-update capability (`display.epd2.hasPartialUpdate`) and
`localtime_r` (as day-of-month and 0-based month of a timestamp). -/
structure Env where
  ascent : Font → Int
  descent : Font → Int
  textW : Font → String → Int
  hasPartialUpdate : Bool
  tmOf : Int → Nat × Nat

/-- One invocation of a panel-driver primitive, the observable panel
mutation.  `printText x y f c s` stands for `setCursor(x, y)` followed by
`print(s)` with foreground color `c` and font `f`. -/
inductive DrawOp where
  | setPartialWindow (x y w h : Int)
  | setFullWindow
  | fillScreen (c : Nat)
  | fillRect (x y w h : Int) (c : Nat)
  | drawPixel (x y : Int) (c : Nat)
  | drawFastHLine (x y w : Int) (c : Nat)
  | drawRect (x y w h : Int) (c : Nat)
  | printText (x y : Int) (f : Font) (c : Nat) (s : String)
deriving DecidableEq

/-- `epd_job_type_t` of display.cpp lines 26-34. -/
inductive EpdJobType where
  | JOB_TEXT
  | JOB_IMAGE
  | JOB_CLEAR
  | JOB_FORCE_CLEAR
  | JOB_DATE
  | JOB_HEADER
  | JOB_PAGE
deriving DecidableEq

/-- `EpdComponentType` of layout.h. -/
inductive EpdComponentType where
  | EPD_COMP_HEADER
  | EPD_COMP_ROW
  | EPD_COMP_PROGRESS
  | EPD_COMP_SEPARATOR
deriving DecidableEq

/-- `EpdComponent` of layout.h; `value` is a C `float`, modeled as `Rat`. -/
structure EpdComponent where
  type : EpdComponentType
  text1 : String
  text2 : String
  value : Rat
  color : Nat
deriving DecidableEq

/-- `EpdPage` of layout.h. -/
structure EpdPage where
  title : String
  components : List EpdComponent
deriving DecidableEq

/-- `epd_job_t` of display.cpp lines 38-50; `data` is the byte vector. -/
structure EpdJob where
  type : EpdJobType
  text : String
  color : Nat
  forceFull : Bool
  width : Int
  height : Int
  data : List Nat
  format : String
  imageColor : String
  time : Int
  page : EpdPage
deriving DecidableEq

/-- The value `new epd_job_t()` produces (value-initialized fields). -/
def EpdJob.base : EpdJob :=
  { type := .JOB_TEXT, text := "", color := 0, forceFull := false,
    width := 0, height := 0, data := [], format := "", imageColor := "",
    time := 0, page := { title := "", components := [] } }

/-- The process-wide runtime settings `g_currentText` / `g_partialEnabled`
(display.cpp lines 57-59). -/
structure RtState where
  currentText : String
  partEnabled : Bool
deriving DecidableEq

/-- The settings at startup: `g_currentText = "Hello API"`,
`g_partialEnabled = ENABLE_PARTIAL_UPDATE`. -/
def initRt : RtState := { currentText := "Hello API", partEnabled := ENABLE_PARTIAL_UPDATE }

/-- `snprintf("%02d", n)` for a nonnegative field of `struct tm`. -/
def pad2 (n : Nat) : String := if n < 10 then "0" ++ toString n else toString n

/-- The `DD.MM` string the `JOB_DATE` case formats (display.cpp lines
100-103): day of month and `tm_mon + 1`. -/
def dateStr (g : Env) (t : Int) : String :=
  pad2 (g.tmOf t).1 ++ "." ++ pad2 ((g.tmOf t).2 + 1)

/-- The C `(int16_t)` cast of a `float`: truncation toward zero, on the
`Rat` model. -/
def ratTrunc (q : Rat) : Int := if q < 0 then Int.ceil q else Int.floor q

/-- One iteration of the inner pixel loop of `_exec_image_bw`
(display.cpp lines 405-410): the byte at `y * bytesPerRow + (x >> 3)`,
bit `7 - (x & 7)`.  The raw C indexing `img[byteIndex]` is modeled with
default `0`; `bwCellsChecked` below is the bounds-checked version. -/
def bwPixel (img : List Nat) (bpr y x : Nat) (rx ry : Int) : List DrawOp :=
  let byteIndex := y * bpr + x / 8
  let b := img.getD byteIndex 0
  if Nat.testBit b (7 - x % 8) then
    [DrawOp.drawPixel (rx + x) (ry + y) GxEPD_BLACK]
  else []

/-- The inner `for (x ...)` loop of `_exec_image_bw` over the listed x
coordinates. -/
def bwCells (img : List Nat) (bpr y : Nat) (rx ry : Int) : List Nat → List DrawOp
  | [] => []
  | x :: xs => bwPixel img bpr y x rx ry ++ bwCells img bpr y rx ry xs

/-- The outer `for (y ...)` loop of `_exec_image_bw` over the listed y
coordinates. -/
def bwRows (img : List Nat) (bpr : Nat) (rx ry : Int) (w : Nat) : List Nat → List DrawOp
  | [] => []
  | y :: ys => bwCells img bpr y rx ry (List.range w) ++ bwRows img bpr rx ry w ys

/-- `_exec_image_bw` (display.cpp lines 399-412): `bytesPerRow =
(width + 7) / 8`, plot each set bit as a black pixel at
`(rx + x, ry + y)`. -/
def exec_image_bw (width height : Int) (img : List Nat) (rx ry : Int) : List DrawOp :=
  let bpr := (Int.tdiv (width + 7) 8).toNat
  bwRows img bpr rx ry width.toNat (List.range height.toNat)

/-- Bounds-checked variant of `bwPixel`: `none` when the source would read
`img` out of bounds. -/
def bwPixelChecked (img : List Nat) (bpr y x : Nat) (rx ry : Int) : Option (List DrawOp) :=
  let byteIndex := y * bpr + x / 8
  match img.get? byteIndex with
  | none => none
  | some b =>
      some (if Nat.testBit b (7 - x % 8) then
        [DrawOp.drawPixel (rx + x) (ry + y) GxEPD_BLACK]
      else [])

/-- Bounds-checked variant of `bwCells`. -/
def bwCellsChecked (img : List Nat) (bpr y : Nat) (rx ry : Int) :
    List Nat → Option (List DrawOp)
  | [] => some []
  | x :: xs =>
      (bwPixelChecked img bpr y x rx ry).bind fun p =>
        (bwCellsChecked img bpr y rx ry xs).bind fun rest =>
          some (p ++ rest)

/-- Bounds-checked variant of `bwRows`. -/
def bwRowsChecked (img : List Nat) (bpr : Nat) (rx ry : Int) (w : Nat) :
    List Nat → Option (List DrawOp)
  | [] => some []
  | y :: ys =>
      (bwCellsChecked img bpr y rx ry (List.range w)).bind fun r =>
        (bwRowsChecked img bpr rx ry w ys).bind fun rest =>
          some (r ++ rest)

/-- Bounds-checked variant of `exec_image_bw`: `none` exactly when some
iteration of the pixel loop indexes the buffer out of bounds. -/
def exec_image_bwChecked (width height : Int) (img : List Nat) (rx ry : Int) :
    Option (List DrawOp) :=
  let bpr := (Int.tdiv (width + 7) 8).toNat
  bwRowsChecked img bpr rx ry width.toNat (List.range height.toNat)

/-- `_exec_displayText` (display.cpp lines 325-374).  Returns the updated
runtime settings (`g_currentText = job.text`) and the emitted draw
operations: font profont29 unless the rendered width exceeds
`width - 8`, centered origin, padded clamped bounding rectangle, and the
partial-vs-full window decision of lines 357-363. -/
def exec_displayText (g : Env) (st : RtState) (job : EpdJob) : RtState × List DrawOp :=
  let st' := { st with currentText := job.text }
  let bw0 := g.textW .profont29 job.text
  let useSmall := bw0 > EPD_WIDTH - 8
  let font := if useSmall then Font.profont17 else Font.profont29
  let bw := if useSmall then g.textW .profont17 job.text else bw0
  let bh := g.ascent font - g.descent font
  let cx := Int.tdiv (EPD_WIDTH - bw) 2
  let cy := Int.tdiv EPD_HEIGHT 2 + Int.tdiv (g.ascent font) 2
  let pad : Int := 4
  let rx := max 0 (Int.tdiv (EPD_WIDTH - bw) 2 - pad)
  let ry := max 0 (Int.tdiv (EPD_HEIGHT - bh) 2 - pad)
  let rw := min (EPD_WIDTH - rx) (bw + pad * 2)
  let rh := min (EPD_HEIGHT - ry) (bh + pad * 2)
  let usedPart := st.partEnabled && g.hasPartialUpdate && !job.forceFull
  let ops :=
    (if usedPart then
      [DrawOp.setPartialWindow rx ry rw rh, DrawOp.fillRect rx ry rw rh GxEPD_WHITE]
    else
      [DrawOp.setFullWindow, DrawOp.fillScreen GxEPD_WHITE])
    ++ [DrawOp.printText cx cy font job.color job.text]
  (st', ops)

/-- `_exec_displayHeader` (display.cpp lines 376-397): a black partial
band of height `ascent - descent + 8` at the top, text printed in white
at `(8, ascent + 4)` in profont17. -/
def exec_displayHeader (g : Env) (job : EpdJob) : List DrawOp :=
  let bh := g.ascent .profont17 - g.descent .profont17
  let rh := bh + 8
  [DrawOp.setPartialWindow 0 0 EPD_WIDTH rh,
   DrawOp.fillRect 0 0 EPD_WIDTH rh GxEPD_BLACK,
   DrawOp.printText 8 (g.ascent .profont17 + 4) .profont17 GxEPD_WHITE job.text]

/-- `_exec_drawImage` (display.cpp lines 417-465): center the image,
partial-vs-full decision as for text, background fill, the bw pixel pass
unless `format == "empty"`, and the bottom-right date overlay when
`job.text` is nonempty.  No validation of buffer size or format is
performed; any format other than `"empty"` goes through the bw handler
(line 437-439). -/
def exec_drawImage (g : Env) (st : RtState) (job : EpdJob) : RtState × List DrawOp :=
  let rx := Int.tdiv (EPD_WIDTH - job.width) 2
  let ry := Int.tdiv (EPD_HEIGHT - job.height) 2
  let usedPart := st.partEnabled && g.hasPartialUpdate && !job.forceFull
  let windowOps :=
    if usedPart then
      [DrawOp.setPartialWindow rx ry job.width job.height,
       DrawOp.fillRect rx ry job.width job.height GxEPD_WHITE]
    else
      [DrawOp.setFullWindow, DrawOp.fillScreen GxEPD_WHITE]
  let imgOps :=
    if job.format ≠ "empty" then exec_image_bw job.width job.height job.data rx ry
    else []
  let textOps :=
    if 0 < job.text.length then
      let tw := g.textW .profont17 job.text
      let th := g.ascent .profont17 - g.descent .profont17
      let tx := EPD_WIDTH - tw - 4
      let ty := EPD_HEIGHT - 4
      [DrawOp.fillRect (tx - 2) (ty - th - 2) (tw + 4) (th + 4) GxEPD_WHITE,
       DrawOp.printText tx ty .profont17 GxEPD_BLACK job.text]
    else []
  (st, windowOps ++ imgOps ++ textOps)

/-- The per-component vertical advance of `_exec_displayPage`'s loop. -/
def compHeight (g : Env) (c : EpdComponent) : Int :=
  match c.type with
  | .EPD_COMP_HEADER => g.ascent .profont15 - g.descent .profont15 + 1
  | .EPD_COMP_ROW => 12
  | .EPD_COMP_PROGRESS => 14
  | .EPD_COMP_SEPARATOR => 4

/-- The draw operations of one component at cursor `y`
(display.cpp lines 505-567). -/
def compOps (g : Env) (y : Int) (c : EpdComponent) : List DrawOp :=
  match c.type with
  | .EPD_COMP_HEADER =>
      [DrawOp.printText 2 (y + g.ascent .profont15) .profont15 GxEPD_BLACK c.text1,
       DrawOp.printText 3 (y + g.ascent .profont15) .profont15 GxEPD_BLACK c.text1]
  | .EPD_COMP_ROW =>
      [DrawOp.printText 2 (y + g.ascent .profont15) .profont15 GxEPD_BLACK c.text1]
      ++ (if 0 < c.text2.length then
            let col := if c.color = 0 then GxEPD_BLACK else c.color
            let valW := g.textW .profont15 c.text2
            [DrawOp.printText (EPD_WIDTH - valW - 2) (y + g.ascent .profont15)
               .profont15 col c.text2]
          else [])
  | .EPD_COMP_PROGRESS =>
      let barW := EPD_WIDTH - 100
      let barX := EPD_WIDTH - barW - 30
      let barY := y + 2
      let barH : Int := 8
      let fillW := ratTrunc ((barW - 4 : Int) * (c.value / 100))
      [DrawOp.printText 2 (y + g.ascent .profont12) .profont12 GxEPD_BLACK c.text1,
       DrawOp.drawRect barX barY barW barH GxEPD_BLACK]
      ++ (if 0 < fillW then
            [DrawOp.fillRect (barX + 2) (barY + 2) fillW (barH - 4)
               (if c.color = 0 then GxEPD_BLACK else c.color)]
          else [])
      ++ [DrawOp.printText (EPD_WIDTH - 25) (y + g.ascent .profont12)
            .profont12 GxEPD_BLACK c.text2]
  | .EPD_COMP_SEPARATOR =>
      [DrawOp.drawFastHLine 2 (y + 1) (EPD_WIDTH - 4) GxEPD_BLACK]

/-- The component loop of `_exec_displayPage` (display.cpp lines
500-568): `break` once `currY > display.height() - 12`, otherwise render
the component and advance the cursor. -/
def renderComps (g : Env) : Int → List EpdComponent → List DrawOp
  | _, [] => []
  | y, c :: rest =>
      if y > EPD_HEIGHT - 12 then []
      else compOps g y c ++ renderComps g (y + compHeight g c) rest

/-- The title block of `_exec_displayPage` (display.cpp lines 478-497):
double-printed bold title, double horizontal rule. -/
def pageHeaderOps (g : Env) (title : String) : List DrawOp :=
  if 0 < title.length then
    [DrawOp.printText 2 (g.ascent .profont15 + 4) .profont15 GxEPD_BLACK title,
     DrawOp.printText 3 (g.ascent .profont15 + 4) .profont15 GxEPD_BLACK title,
     DrawOp.drawFastHLine 0 (g.ascent .profont15 + 8) EPD_WIDTH GxEPD_BLACK,
     DrawOp.drawFastHLine 0 (g.ascent .profont15 + 8 + 1) EPD_WIDTH GxEPD_BLACK]
  else []

/-- The cursor position after the title block: `ascent + 8 + 10` with a
title, else the minimal top margin 2. -/
def pageStartY (g : Env) (title : String) : Int :=
  if 0 < title.length then g.ascent .profont15 + 8 + 10 else 2

/-- `_exec_displayPage` (display.cpp lines 467-572): always a full-window
refresh, white background, title block, then the component loop. -/
def exec_displayPage (g : Env) (st : RtState) (job : EpdJob) : RtState × List DrawOp :=
  (st,
    [DrawOp.setFullWindow, DrawOp.fillScreen GxEPD_WHITE]
    ++ pageHeaderOps g job.page.title
    ++ renderComps g (pageStartY g job.page.title) job.page.components)

/-- `_exec_clear` (display.cpp lines 574-598): plain white fill, or for
`force` four white/black inversion cycles ending on a white fill (the
`vTaskDelay` settling pauses mutate no pixels and are not modeled). -/
def exec_clear (force : Bool) : List DrawOp :=
  if force then
    (List.range 4).flatMap
      (fun _ => [DrawOp.setFullWindow, DrawOp.fillScreen GxEPD_WHITE,
                 DrawOp.setFullWindow, DrawOp.fillScreen GxEPD_BLACK])
    ++ [DrawOp.setFullWindow, DrawOp.fillScreen GxEPD_WHITE]
  else [DrawOp.setFullWindow, DrawOp.fillScreen GxEPD_WHITE]

/-- The `switch (job->type)` dispatch of `epd_worker_task` (display.cpp
lines 84-124).  The `JOB_DATE` case builds the derived image job of lines
106-114 (empty image data, format `"empty"`, full size, `forceFull`,
date string in `text`) and runs it through `_exec_drawImage`. -/
def execJob (g : Env) (st : RtState) (job : EpdJob) : RtState × List DrawOp :=
  match job.type with
  | .JOB_TEXT => exec_displayText g st job
  | .JOB_IMAGE => exec_drawImage g st job
  | .JOB_CLEAR => (st, exec_clear false)
  | .JOB_FORCE_CLEAR => (st, exec_clear true)
  | .JOB_DATE =>
      let dateJob :=
        { job with
          type := .JOB_IMAGE
          width := EPD_WIDTH
          height := EPD_HEIGHT
          data := []
          format := "empty"
          imageColor := "black"
          forceFull := true
          text := dateStr g job.time }
      exec_drawImage g st dateJob
  | .JOB_HEADER => (st, exec_displayHeader g job)
  | .JOB_PAGE => exec_displayPage g st job

/-- `xQueueCreate(5, ...)` in `epd_init` (display.cpp line 155): the
queue holds at most 5 pending jobs. -/
def QUEUE_CAPACITY : Nat := 5

/-- The whole worker/queue system after `epd_init`: the pending FIFO
(`s_jobQueue`, head oldest), the `s_isBlockedByTask` flag, the job the
worker currently executes (ghost, for stating claims), the runtime
settings, the panel trace, and ghost traces of completed and successfully
enqueued jobs. -/
structure Sys where
  queue : List EpdJob
  blockedFlag : Bool
  running : Option EpdJob
  rt : RtState
  panel : List DrawOp
  executed : List EpdJob
  enqueuedOk : List EpdJob
deriving DecidableEq

/-- The system right after `epd_init`: empty queue, idle worker. -/
def initSys : Sys :=
  { queue := [], blockedFlag := false, running := none, rt := initRt,
    panel := [], executed := [], enqueuedOk := [] }

/-- `_queueJob` (display.cpp lines 167-178): `xQueueSend` with zero wait
time appends the job when fewer than `QUEUE_CAPACITY` are pending and
returns `true`; on a full queue the job is deleted (never enters the
queue) and `false` is returned with the state untouched. -/
def queueJob (job : EpdJob) (s : Sys) : Bool × Sys :=
  if s.queue.length < QUEUE_CAPACITY then
    (true,
     { s with
       queue := s.queue ++ [job]
       enqueuedOk := s.enqueuedOk ++ [job] })
  else (false, s)

/-- The job `epd_displayText` builds (display.cpp lines 183-187). -/
def mkTextJob (txt : String) (color : Nat) (ff : Bool) : EpdJob :=
  { EpdJob.base with
    type := .JOB_TEXT
    text := txt
    color := color
    forceFull := ff }

/-- The job `epd_displayHeader` builds (display.cpp lines 194-196). -/
def mkHeaderJob (txt : String) : EpdJob :=
  { EpdJob.base with
    type := .JOB_HEADER
    text := txt }

/-- The job `epd_displayDate` builds (display.cpp lines 201-203). -/
def mkDateJob (t : Int) : EpdJob :=
  { EpdJob.base with
    type := .JOB_DATE
    time := t }

/-- The job `epd_drawImageFromBitplanes` builds (display.cpp lines
286-293). -/
def mkImageJob (w h : Int) (data : List Nat) (format color : String) (ff : Bool) : EpdJob :=
  { EpdJob.base with
    type := .JOB_IMAGE
    width := w
    height := h
    data := data
    format := format
    imageColor := color
    forceFull := ff }

/-- The job `epd_displayPage` builds (display.cpp lines 299-301). -/
def mkPageJob (p : EpdPage) : EpdJob :=
  { EpdJob.base with
    type := .JOB_PAGE
    page := p }

/-- The job `epd_clear` builds (display.cpp lines 270-271). -/
def mkClearJob : EpdJob := { EpdJob.base with type := .JOB_CLEAR }

/-- The job `epd_forceClear` builds (display.cpp lines 276-277). -/
def mkForceClearJob : EpdJob := { EpdJob.base with type := .JOB_FORCE_CLEAR }

/-- `epd_displayText` (display.cpp lines 180-190).  The first component
is the value the C++ caller receives: the function returns `void`, so it
is always `none` (no boolean ever reaches the caller); an empty string
returns before any job is built. -/
def epd_displayText (txt : String) (color : Nat) (ff : Bool) (s : Sys) :
    Option Bool × Sys :=
  if txt.length = 0 then (none, s)
  else (none, (queueJob (mkTextJob txt color ff) s).2)

/-- `epd_displayHeader` (display.cpp lines 192-198), `void`; an empty
string returns before any job is built. -/
def epd_displayHeader (txt : String) (s : Sys) : Option Bool × Sys :=
  if txt.length = 0 then (none, s)
  else (none, (queueJob (mkHeaderJob txt) s).2)

/-- `epd_displayDate` (display.cpp lines 200-206), `void`. -/
def epd_displayDate (t : Int) (s : Sys) : Option Bool × Sys :=
  (none, (queueJob (mkDateJob t) s).2)

/-- `epd_clear` (display.cpp lines 269-273), `void`: the boolean
`_queueJob` returns is dropped. -/
def epd_clear (s : Sys) : Option Bool × Sys :=
  (none, (queueJob mkClearJob s).2)

/-- `epd_forceClear` (display.cpp lines 275-279), `void`. -/
def epd_forceClear (s : Sys) : Option Bool × Sys :=
  (none, (queueJob mkForceClearJob s).2)

/-- `epd_forceClear_async` (display.cpp lines 281-283): returns
`_queueJob`'s boolean. -/
def epd_forceClear_async (s : Sys) : Option Bool × Sys :=
  let r := queueJob mkForceClearJob s
  (some r.1, r.2)

/-- `epd_drawImageFromBitplanes` (display.cpp lines 285-296): returns
`_queueJob`'s boolean. -/
def epd_drawImageFromBitplanes (w h : Int) (data : List Nat)
    (format color : String) (ff : Bool) (s : Sys) : Option Bool × Sys :=
  let r := queueJob (mkImageJob w h data format color ff) s
  (some r.1, r.2)

/-- `epd_displayPage` (display.cpp lines 298-303), `void`. -/
def epd_displayPage (p : EpdPage) (s : Sys) : Option Bool × Sys :=
  (none, (queueJob (mkPageJob p) s).2)

/-- `epd_setPartialEnabled` (display.cpp line 320). -/
def epd_setPartialEnabled (b : Bool) (s : Sys) : Sys :=
  { s with rt := { s.rt with partEnabled := b } }

/-- `epd_isBusy` (display.cpp lines 305-308):
`s_isBlockedByTask || uxQueueMessagesWaiting(s_jobQueue) > 0`. -/
def epd_isBusy (s : Sys) : Bool :=
  s.blockedFlag || decide (0 < s.queue.length)

/-- `epd_getCurrentText` (display.cpp line 316). -/
def epd_getCurrentText (s : Sys) : String := s.rt.currentText

/-- `uxQueueMessagesWaiting(s_jobQueue)`: the number of pending jobs. -/
def pendingCount (s : Sys) : Nat := s.queue.length

/-- A producer call into the enqueue/settings API. -/
inductive Act where
  | text (txt : String) (color : Nat) (ff : Bool)
  | header (txt : String)
  | date (t : Int)
  | image (w h : Int) (data : List Nat) (format color : String) (ff : Bool)
  | page (p : EpdPage)
  | clear
  | forceClear
  | forceClearAsync
  | setPart (b : Bool)

/-- The effect of a producer call: the value returned to the caller and
the next system state. -/
def applyAct : Act → Sys → Option Bool × Sys
  | .text txt color ff, s => epd_displayText txt color ff s
  | .header txt, s => epd_displayHeader txt s
  | .date t, s => epd_displayDate t s
  | .image w h d fm c ff, s => epd_drawImageFromBitplanes w h d fm c ff s
  | .page p, s => epd_displayPage p s
  | .clear, s => epd_clear s
  | .forceClear, s => epd_forceClear s
  | .forceClearAsync, s => epd_forceClear_async s
  | .setPart b, s => (none, epd_setPartialEnabled b s)

/-- One atomic transition of the system: a producer call, the worker
receiving the queue head and raising `s_isBlockedByTask` (display.cpp
lines 81-82), or the worker finishing the dispatched job, appending its
draw operations to the panel and clearing the flag (lines 84-127). -/
inductive Step (g : Env) : Sys → Sys → Prop
  | act (a : Act) (s : Sys) : Step g s (applyAct a s).2
  | start (s : Sys) (j : EpdJob) (rest : List EpdJob)
      (hq : s.queue = j :: rest) (hr : s.running = none) :
      Step g s { s with queue := rest, running := some j, blockedFlag := true }
  | finish (s : Sys) (j : EpdJob) (hr : s.running = some j) :
      Step g s
        { s with
          running := none
          blockedFlag := false
          rt := (execJob g s.rt j).1
          panel := s.panel ++ (execJob g s.rt j).2
          executed := s.executed ++ [j] }

/-- The states the system can reach from `epd_init`. -/
inductive Reachable (g : Env) : Sys → Prop
  | init : Reachable g initSys
  | step {s t : Sys} : Reachable g s → Step g s t → Reachable g t

/-- Sequential execution of a list of jobs by the worker: the final
runtime settings and the concatenated draw operations. -/
def runJobs (g : Env) (rt : RtState) : List EpdJob → RtState × List DrawOp
  | [] => (rt, [])
  | j :: rest =>
      let r := execJob g rt j
      let k := runJobs g r.1 rest
      (k.1, r.2 ++ k.2)

/-- The text of the last `JOB_TEXT` job in the list, else the default. -/
def lastTextD (d : String) : List EpdJob → String
  | [] => d
  | j :: rest => lastTextD (if j.type = EpdJobType.JOB_TEXT then j.text else d) rest

/-- The prefix of components the page loop renders before its truncation
`break`, starting at cursor `y`. -/
def fitComps (g : Env) : Int → List EpdComponent → List EpdComponent
  | _, [] => []
  | y, c :: rest =>
      if y > EPD_HEIGHT - 12 then []
      else c :: fitComps g (y + compHeight g c) rest

/-- The font `_exec_displayText` settles on: profont29 unless the
rendered width exceeds `display.width() - 8`, then profont17. -/
def textFontSel (g : Env) (txt : String) : Font :=
  if g.textW .profont29 txt > EPD_WIDTH - 8 then .profont17 else .profont29

/-- The bounding width `bw` of `_exec_displayText` after font selection. -/
def textBW (g : Env) (txt : String) : Int := g.textW (textFontSel g txt) txt

/-- The bounding height `bh` of `_exec_displayText` after font selection. -/
def textBH (g : Env) (txt : String) : Int :=
  g.ascent (textFontSel g txt) - g.descent (textFontSel g txt)

/-- The clamped x of the padded bounding rectangle of `_exec_displayText`. -/
def textRX (g : Env) (txt : String) : Int :=
  max 0 (Int.tdiv (EPD_WIDTH - textBW g txt) 2 - 4)

/-- The clamped y of the padded bounding rectangle of `_exec_displayText`. -/
def textRY (g : Env) (txt : String) : Int :=
  max 0 (Int.tdiv (EPD_HEIGHT - textBH g txt) 2 - 4)

/-- The clamped width of the padded bounding rectangle of
`_exec_displayText`. -/
def textRW (g : Env) (txt : String) : Int :=
  min (EPD_WIDTH - textRX g txt) (textBW g txt + 8)

/-- The clamped height of the padded bounding rectangle of
`_exec_displayText`. -/
def textRH (g : Env) (txt : String) : Int :=
  min (EPD_HEIGHT - textRY g txt) (textBH g txt + 8)

/-- The centered cursor x of `_exec_displayText`. -/
def textCX (g : Env) (txt : String) : Int := Int.tdiv (EPD_WIDTH - textBW g txt) 2

/-- The centered cursor y of `_exec_displayText`. -/
def textCY (g : Env) (txt : String) : Int :=
  Int.tdiv EPD_HEIGHT 2 + Int.tdiv (g.ascent (textFontSel g txt)) 2

/-- A concrete environment for witnesses and counterexamples: plausible
profont metrics (ascent/descent per font, fixed advance per glyph), a
panel with partial-update support, and a `localtime_r` that maps every
timestamp to January 1st. -/
def envEx : Env :=
  { ascent := fun f => match f with
      | .profont29 => 19 | .profont17 => 11 | .profont15 => 10 | .profont12 => 8
    descent := fun f => match f with
      | .profont29 => -5 | .profont17 => -3 | .profont15 => -3 | .profont12 => -2
    textW := fun f s =>
      (match f with
       | .profont29 => 16 | .profont17 => 9 | .profont15 => 8 | .profont12 => 6) * s.length
    hasPartialUpdate := true
    tmOf := fun _ => (1, 0) }

/-- A bi-color job whose two planes overlap everywhere:
`data[i] & data[planeSize + i] = 255` for the single in-plane byte. -/
def job3c : EpdJob := mkImageJob 8 1 [255, 255] "3c" "red" true

/-- The system after one successful `epd_clear` enqueue. -/
def sysClear1 : Sys := (epd_clear initSys).2

/-- The system after the worker has received that clear job: empty
queue, flag raised, job executing. -/
def sysRun1 : Sys :=
  { queue := [], blockedFlag := true, running := some mkClearJob, rt := initRt,
    panel := [], executed := [], enqueuedOk := [mkClearJob] }

/-- The system with two pending clear jobs and an idle worker. -/
def sysAB : Sys := (epd_clear (epd_clear initSys).2).2

/-- The system with five pending clear jobs (a full queue) and an idle
worker. -/
def sysFull5 : Sys :=
  (epd_clear (epd_clear (epd_clear (epd_clear (epd_clear initSys).2).2).2).2).2

theorem queueJob_full {j : EpdJob} {s : Sys} (h : ¬ s.queue.length < QUEUE_CAPACITY) :
    queueJob j s = (false, s) := by
  simp [queueJob, h]

theorem queueJob_fields (j : EpdJob) (s : Sys) :
    ((queueJob j s).2.blockedFlag = s.blockedFlag ∧
     (queueJob j s).2.running = s.running) ∧
    (queueJob j s).2.executed = s.executed ∧
    (queueJob j s).2.panel = s.panel ∧
    (queueJob j s).2.rt = s.rt := by
  simp only [queueJob]; split <;> exact ⟨⟨rfl, rfl⟩, rfl, rfl, rfl⟩

theorem queueJob_queue (j : EpdJob) (s : Sys) :
    ((queueJob j s).2.queue = s.queue ∧ (queueJob j s).2.enqueuedOk = s.enqueuedOk) ∨
    (s.queue.length < QUEUE_CAPACITY ∧
     (queueJob j s).2.queue = s.queue ++ [j] ∧
     (queueJob j s).2.enqueuedOk = s.enqueuedOk ++ [j]) := by
  simp only [queueJob]; split
  · exact Or.inr ⟨by assumption, rfl, rfl⟩
  · exact Or.inl ⟨rfl, rfl⟩

theorem applyAct_cases (a : Act) (s : Sys) :
    (applyAct a s).2 = s ∨ (∃ j, (applyAct a s).2 = (queueJob j s).2) ∨
    (∃ b, (applyAct a s).2 = epd_setPartialEnabled b s) := by
  cases a with
  | text txt c ff =>
      by_cases h : txt.length = 0
      · exact Or.inl (by simp [applyAct, epd_displayText, h])
      · exact Or.inr (Or.inl ⟨mkTextJob txt c ff, by simp [applyAct, epd_displayText, h]⟩)
  | header txt =>
      by_cases h : txt.length = 0
      · exact Or.inl (by simp [applyAct, epd_displayHeader, h])
      · exact Or.inr (Or.inl ⟨mkHeaderJob txt, by simp [applyAct, epd_displayHeader, h]⟩)
  | date t => exact Or.inr (Or.inl ⟨_, rfl⟩)
  | image w h d fm c ff => exact Or.inr (Or.inl ⟨_, rfl⟩)
  | page p => exact Or.inr (Or.inl ⟨_, rfl⟩)
  | clear => exact Or.inr (Or.inl ⟨_, rfl⟩)
  | forceClear => exact Or.inr (Or.inl ⟨_, rfl⟩)
  | forceClearAsync => exact Or.inr (Or.inl ⟨_, rfl⟩)
  | setPart b => exact Or.inr (Or.inr ⟨b, rfl⟩)

theorem applyAct_misc (a : Act) (s : Sys) :
    ((applyAct a s).2.blockedFlag = s.blockedFlag ∧
     (applyAct a s).2.running = s.running) ∧
    (applyAct a s).2.executed = s.executed ∧
    (applyAct a s).2.panel = s.panel ∧
    (applyAct a s).2.rt.currentText = s.rt.currentText := by
  rcases applyAct_cases a s with he | ⟨j, he⟩ | ⟨b, he⟩
  · rw [he]; exact ⟨⟨rfl, rfl⟩, rfl, rfl, rfl⟩
  · rw [he]
    rcases queueJob_fields j s with ⟨⟨h1, h2⟩, h3, h4, h5⟩
    exact ⟨⟨h1, h2⟩, h3, h4, by rw [h5]⟩
  · rw [he]; exact ⟨⟨rfl, rfl⟩, rfl, rfl, rfl⟩

theorem applyAct_queue (a : Act) (s : Sys) :
    ((applyAct a s).2.queue = s.queue ∧ (applyAct a s).2.enqueuedOk = s.enqueuedOk) ∨
    (s.queue.length < QUEUE_CAPACITY ∧ ∃ j,
     (applyAct a s).2.queue = s.queue ++ [j] ∧
     (applyAct a s).2.enqueuedOk = s.enqueuedOk ++ [j]) := by
  rcases applyAct_cases a s with he | ⟨j, he⟩ | ⟨b, he⟩
  · rw [he]; exact Or.inl ⟨rfl, rfl⟩
  · rw [he]
    rcases queueJob_queue j s with ⟨h1, h2⟩ | ⟨h0, h1, h2⟩
    · exact Or.inl ⟨h1, h2⟩
    · exact Or.inr ⟨h0, j, h1, h2⟩
  · rw [he]; exact Or.inl ⟨rfl, rfl⟩

theorem Step.pres_queue_le {g : Env} {s t : Sys} (hstep : Step g s t)
    (h : s.queue.length ≤ QUEUE_CAPACITY) : t.queue.length ≤ QUEUE_CAPACITY := by
  cases hstep with
  | act a =>
      rcases applyAct_queue a s with ⟨h1, _⟩ | ⟨h0, j, h1, _⟩
      · rw [h1]; exact h
      · rw [h1]; simp only [List.length_append, List.length_cons, List.length_nil]
        omega
  | start s0 j rest hq hr =>
      have h2 : s.queue.length = rest.length + 1 := by rw [hq]; simp
      show rest.length ≤ QUEUE_CAPACITY
      omega
  | finish s0 j hr => exact h

theorem reachable_queue_le {g : Env} {s : Sys} (h : Reachable g s) :
    s.queue.length ≤ QUEUE_CAPACITY := by
  induction h with
  | init => simp [initSys]
  | step _ hstep ih => exact hstep.pres_queue_le ih

theorem Step.pres_flag {g : Env} {s t : Sys} (hstep : Step g s t)
    (h : s.blockedFlag = s.running.isSome) : t.blockedFlag = t.running.isSome := by
  cases hstep with
  | act a =>
      rcases applyAct_misc a s with ⟨⟨h1, h2⟩, _⟩
      rw [h1, h2]; exact h
  | start s0 j rest hq hr => rfl
  | finish s0 j hr => rfl

theorem reachable_flag {g : Env} {s : Sys} (h : Reachable g s) :
    s.blockedFlag = s.running.isSome := by
  induction h with
  | init => rfl
  | step _ hstep ih => exact hstep.pres_flag ih

theorem Step.pres_trace {g : Env} {s t : Sys} (hstep : Step g s t)
    (h : s.executed ++ s.running.toList ++ s.queue = s.enqueuedOk) :
    t.executed ++ t.running.toList ++ t.queue = t.enqueuedOk := by
  cases hstep with
  | act a =>
      rcases applyAct_misc a s with ⟨⟨_, h2⟩, h3, _, _⟩
      rcases applyAct_queue a s with ⟨h4, h5⟩ | ⟨_, j, h4, h5⟩
      · rw [h2, h3, h4, h5]; exact h
      · rw [h2, h3, h4, h5, ← h]; simp
  | start s0 j rest hq hr =>
      show s.executed ++ (some j).toList ++ rest = s.enqueuedOk
      rw [← h, hr, hq]; simp
  | finish s0 j hr =>
      show (s.executed ++ [j]) ++ (none : Option EpdJob).toList ++ s.queue = s.enqueuedOk
      rw [← h, hr]; simp

theorem reachable_trace {g : Env} {s : Sys} (h : Reachable g s) :
    s.executed ++ s.running.toList ++ s.queue = s.enqueuedOk := by
  induction h with
  | init => rfl
  | step _ hstep ih => exact hstep.pres_trace ih

theorem execJob_currentText (g : Env) (rt : RtState) (j : EpdJob) :
    (execJob g rt j).1.currentText =
      (if j.type = EpdJobType.JOB_TEXT then j.text else rt.currentText) := by
  unfold execJob
  cases h : j.type <;> simp [exec_displayText, exec_drawImage, exec_displayPage]

theorem lastTextD_append (d : String) (l : List EpdJob) (j : EpdJob) :
    lastTextD d (l ++ [j]) =
      (if j.type = EpdJobType.JOB_TEXT then j.text else lastTextD d l) := by
  induction l generalizing d with
  | nil => rfl
  | cons a l ih => simp only [List.cons_append, lastTextD, List.append_eq, ih]

theorem Step.pres_text {g : Env} {s t : Sys} (hstep : Step g s t)
    (h : s.rt.currentText = lastTextD initRt.currentText s.executed) :
    t.rt.currentText = lastTextD initRt.currentText t.executed := by
  cases hstep with
  | act a =>
      rcases applyAct_misc a s with ⟨_, h3, _, h5⟩
      rw [h3, h5]; exact h
  | start s0 j rest hq hr => exact h
  | finish s0 j hr =>
      show (execJob g s.rt j).1.currentText =
        lastTextD initRt.currentText (s.executed ++ [j])
      rw [execJob_currentText, lastTextD_append, h]

theorem reachable_currentText {g : Env} {s : Sys} (h : Reachable g s) :
    s.rt.currentText = lastTextD initRt.currentText s.executed := by
  induction h with
  | init => rfl
  | step _ hstep ih => exact hstep.pres_text ih

theorem reach_sysClear1 (g : Env) : Reachable g sysClear1 :=
  Reachable.step Reachable.init (Step.act Act.clear initSys)

theorem reach_sysRun1 (g : Env) : Reachable g sysRun1 :=
  Reachable.step (reach_sysClear1 g) (Step.start sysClear1 mkClearJob [] rfl rfl)

theorem reach_sysAB (g : Env) : Reachable g sysAB :=
  Reachable.step (reach_sysClear1 g) (Step.act Act.clear sysClear1)

theorem reach_sysFull5 (g : Env) : Reachable g sysFull5 :=
  Reachable.step (Reachable.step (Reachable.step (reach_sysAB g)
    (Step.act Act.clear sysAB)) (Step.act Act.clear _)) (Step.act Act.clear _)

theorem execJob_text_eq (g : Env) (st : RtState) (job : EpdJob)
    (hty : job.type = EpdJobType.JOB_TEXT) :
    execJob g st job = exec_displayText g st job := by
  unfold execJob; rw [hty]

theorem exec_displayText_len (g : Env) (st : RtState) (job : EpdJob) :
    (exec_displayText g st job).2.length = 3 := by
  unfold exec_displayText
  dsimp only
  split <;> rfl

theorem dateStr_pos (g : Env) (t : Int) : 0 < (dateStr g t).length := by
  unfold dateStr
  rw [String.length_append, String.length_append]
  have h : (".").length = 1 := rfl
  omega

theorem exec_displayText_eq (g : Env) (st : RtState) (job : EpdJob) :
    exec_displayText g st job =
      ({ st with currentText := job.text },
       (if st.partEnabled && g.hasPartialUpdate && !job.forceFull then
          [DrawOp.setPartialWindow (textRX g job.text) (textRY g job.text)
             (textRW g job.text) (textRH g job.text),
           DrawOp.fillRect (textRX g job.text) (textRY g job.text)
             (textRW g job.text) (textRH g job.text) GxEPD_WHITE]
        else [DrawOp.setFullWindow, DrawOp.fillScreen GxEPD_WHITE])
       ++ [DrawOp.printText (textCX g job.text) (textCY g job.text)
             (textFontSel g job.text) job.color job.text]) := by
  by_cases hs : g.textW .profont29 job.text > EPD_WIDTH - 8 <;>
    simp [exec_displayText, textRX, textRY, textRW, textRH, textCX, textCY,
      textBW, textBH, textFontSel, hs]

theorem renderComps_fit (g : Env) (y : Int) (cs : List EpdComponent) :
    renderComps g y (fitComps g y cs) = renderComps g y cs := by
  induction cs generalizing y with
  | nil => rfl
  | cons c rest ih =>
      by_cases hy : y > EPD_HEIGHT - 12
      · simp [fitComps, renderComps, hy]
      · simp [fitComps, renderComps, hy, ih]

theorem fitComps_prefix (g : Env) (y : Int) (cs : List EpdComponent) :
    ∃ rest, fitComps g y cs ++ rest = cs := by
  induction cs generalizing y with
  | nil => exact ⟨[], rfl⟩
  | cons c rest ih =>
      by_cases hy : y > EPD_HEIGHT - 12
      · exact ⟨c :: rest, by simp [fitComps, hy]⟩
      · obtain ⟨r, hr⟩ := ih (y + compHeight g c)
        exact ⟨r, by simp [fitComps, hy, hr]⟩

theorem bwPixelChecked_some (img : List Nat) (bpr y x : Nat) (rx ry : Int)
    (h : y * bpr + x / 8 < img.length) :
    bwPixelChecked img bpr y x rx ry = some (bwPixel img bpr y x rx ry) := by
  unfold bwPixelChecked bwPixel
  dsimp only
  rw [List.get?_eq_get h, List.getD_eq_get _ _ h]

theorem bwCellsChecked_some (img : List Nat) (bpr y : Nat) (rx ry : Int)
    (xs : List Nat) (h : ∀ x ∈ xs, y * bpr + x / 8 < img.length) :
    bwCellsChecked img bpr y rx ry xs = some (bwCells img bpr y rx ry xs) := by
  induction xs with
  | nil => rfl
  | cons x xs ih =>
      unfold bwCellsChecked bwCells
      rw [bwPixelChecked_some img bpr y x rx ry (h x (List.mem_cons_self x xs)),
        ih (fun a ha => h a (List.mem_cons_of_mem x ha))]
      rfl

theorem bwRowsChecked_some (img : List Nat) (bpr : Nat) (rx ry : Int) (w : Nat)
    (ys : List Nat) (h : ∀ y ∈ ys, ∀ x ∈ List.range w, y * bpr + x / 8 < img.length) :
    bwRowsChecked img bpr rx ry w ys = some (bwRows img bpr rx ry w ys) := by
  induction ys with
  | nil => rfl
  | cons y ys ih =>
      unfold bwRowsChecked bwRows
      rw [bwCellsChecked_some img bpr y rx ry (List.range w) (h y (List.mem_cons_self y ys)),
        ih (fun a ha => h a (List.mem_cons_of_mem y ha))]
      rfl

/-- C1 counterexample: the claim says a `"3c"` image job whose planes
overlap (`data[i] & data[planeSize + i] != 0`) is rejected at execution
time with no panel mutation.  On `job3c` (planes `[255]` and `[255]`,
overlapping everywhere) the worker instead mutates the panel and even
plots pixels: `_exec_drawImage` performs no validation at all. -/
theorem image_overlap_not_rejected :
    (execJob envEx initRt job3c).2 ≠ [] ∧
    DrawOp.drawPixel 60 147 GxEPD_BLACK ∈ (execJob envEx initRt job3c).2 := by
  decide

/-- C1 amended: the worker performs no execution-time validation of
image jobs.  Every image job whose format is not the internal `"empty"`
marker mutates the panel (the emitted operation list is nonempty), never
touches the runtime settings, and is rendered through the single-plane
bw handler regardless of its declared format — the bw pass over the
buffer appears verbatim inside the emitted operations (line 437-439 of
display.cpp; 3c handling was removed). -/
theorem image_exec_no_validation (g : Env) (st : RtState) (job : EpdJob)
    (hty : job.type = EpdJobType.JOB_IMAGE) (hfmt : job.format ≠ "empty") :
    (execJob g st job).2 ≠ [] ∧
    (execJob g st job).1 = st ∧
    List.IsInfix
      (exec_image_bw job.width job.height job.data
        (Int.tdiv (EPD_WIDTH - job.width) 2) (Int.tdiv (EPD_HEIGHT - job.height) 2))
      ((execJob g st job).2) := by
  unfold execJob
  rw [hty]
  unfold exec_drawImage
  simp only [hfmt, if_pos, ne_eq, not_false_eq_true]
  refine ⟨?_, by trivial, ?_⟩
  · split <;> simp
  · exact ⟨_, _, rfl⟩

/-- Witness for C1 amended, at the concrete overlapping 3c job. -/
theorem image_exec_no_validation_witness :
    (execJob envEx initRt job3c).1 = initRt ∧
    List.IsInfix
      (exec_image_bw job3c.width job3c.height job3c.data
        (Int.tdiv (EPD_WIDTH - job3c.width) 2) (Int.tdiv (EPD_HEIGHT - job3c.height) 2))
      ((execJob envEx initRt job3c).2) := by
  obtain ⟨h1, h2, h3⟩ :=
    image_exec_no_validation envEx initRt job3c rfl (by decide)
  exact ⟨h2, h3⟩

/-- C2: in every reachable state at most `QUEUE_CAPACITY = 5` jobs are
pending, and an enqueue attempted while 5 are pending returns `false`
with the job discarded and the whole system state unchanged. -/
theorem queue_bound {g : Env} {s : Sys} (h : Reachable g s) :
    pendingCount s ≤ QUEUE_CAPACITY ∧
    (pendingCount s = QUEUE_CAPACITY → ∀ j, queueJob j s = (false, s)) := by
  refine ⟨reachable_queue_le h, fun hful j => ?_⟩
  apply queueJob_full
  simp only [pendingCount] at hful
  omega

/-- Witness for C2 at the reachable full-queue state `sysFull5`. -/
theorem queue_bound_witness :
    pendingCount sysFull5 ≤ QUEUE_CAPACITY ∧
    queueJob mkClearJob sysFull5 = (false, sysFull5) :=
  ⟨(queue_bound (reach_sysFull5 envEx)).1,
   (queue_bound (reach_sysFull5 envEx)).2 (by decide) mkClearJob⟩

/-- C3: in every reachable state `epd_isBusy` is `true` exactly when a
job is being executed or at least one job is pending (receiving a job
and raising `s_isBlockedByTask` is one atomic step of the model, as is
finishing and clearing it, so the flag tracks execution exactly). -/
theorem isBusy_iff {g : Env} {s : Sys} (h : Reachable g s) :
    epd_isBusy s = true ↔ (s.running.isSome = true ∨ 0 < pendingCount s) := by
  have hf := reachable_flag h
  simp [epd_isBusy, pendingCount, hf]

/-- Witness for C3 at the reachable state `sysRun1`, where a job is
executing and the queue is empty. -/
theorem isBusy_iff_witness :
    (epd_isBusy sysRun1 = true ↔
      (sysRun1.running.isSome = true ∨ 0 < pendingCount sysRun1)) ∧
    epd_isBusy sysRun1 = true ∧ pendingCount sysRun1 = 0 :=
  ⟨isBusy_iff (reach_sysRun1 envEx), by decide, by decide⟩

/-- C4: jobs execute in strict FIFO order — in every reachable state the
completed jobs, the one in execution and the pending queue are exactly
the successfully enqueued jobs in enqueue order — and from any reachable
idle state with jobs A then B at the head of the queue the worker runs
both to completion, with the final panel equal to A's output followed by
B's output computed on the runtime state A left behind. -/
theorem fifo_order {g : Env} {s : Sys} (h : Reachable g s) :
    s.executed ++ s.running.toList ++ s.queue = s.enqueuedOk ∧
    (∀ A B rest, s.queue = A :: B :: rest → s.running = none →
      ∃ t, Relation.ReflTransGen (Step g) s t ∧
        t.queue = rest ∧ t.running = none ∧
        t.executed = s.executed ++ [A, B] ∧
        t.panel = s.panel ++
          ((execJob g s.rt A).2 ++ (execJob g (execJob g s.rt A).1 B).2)) := by
  refine ⟨reachable_trace h, fun A B rest hq hr => ?_⟩
  refine ⟨{ s with
      queue := rest, running := none, blockedFlag := false,
      rt := (execJob g (execJob g s.rt A).1 B).1,
      panel := (s.panel ++ (execJob g s.rt A).2) ++ (execJob g (execJob g s.rt A).1 B).2,
      executed := (s.executed ++ [A]) ++ [B] },
    ?_, rfl, rfl, by simp, by simp⟩
  have st1 : Step g s
      { s with queue := B :: rest, running := some A, blockedFlag := true } :=
    Step.start s A (B :: rest) hq hr
  have st2 := Step.finish (g := g)
    { s with queue := B :: rest, running := some A, blockedFlag := true } A rfl
  have st3 := Step.start (g := g)
    { s with
      queue := B :: rest, running := (none : Option EpdJob), blockedFlag := false,
      rt := (execJob g s.rt A).1, panel := s.panel ++ (execJob g s.rt A).2,
      executed := s.executed ++ [A] }
    B rest rfl rfl
  have st4 := Step.finish (g := g)
    { s with
      queue := rest, running := some B, blockedFlag := true,
      rt := (execJob g s.rt A).1, panel := s.panel ++ (execJob g s.rt A).2,
      executed := s.executed ++ [A] }
    B rfl
  exact Relation.ReflTransGen.tail
    (Relation.ReflTransGen.tail
      (Relation.ReflTransGen.tail (Relation.ReflTransGen.single st1) st2) st3) st4

/-- Witness for C4 at the reachable state `sysAB` holding two pending
clear jobs. -/
theorem fifo_order_witness :
    (sysAB.executed ++ sysAB.running.toList ++ sysAB.queue = sysAB.enqueuedOk) ∧
    ∃ t, Relation.ReflTransGen (Step envEx) sysAB t ∧
      t.queue = [] ∧ t.running = none ∧
      t.executed = sysAB.executed ++ [mkClearJob, mkClearJob] ∧
      t.panel = sysAB.panel ++
        ((execJob envEx sysAB.rt mkClearJob).2 ++
         (execJob envEx (execJob envEx sysAB.rt mkClearJob).1 mkClearJob).2) := by
  have h := fifo_order (reach_sysAB envEx)
  exact ⟨h.1, h.2 mkClearJob mkClearJob [] rfl rfl⟩

/-- C5 counterexample: no fixed color makes executing `Date(t)` produce
the panel effect of executing `Text(format(t), color)`.  The date is
executed through `_exec_drawImage` as an empty image with a bottom-right
overlay (4 draw operations), while a text job always emits 3; the two
never agree, refuting the claim at `t = 0`. -/
theorem date_not_text_equivalent :
    ¬ ∃ (c : Nat) (ff : Bool), ∀ (st : RtState) (t : Int),
        (execJob envEx st (mkDateJob t)).2 =
        (execJob envEx st (mkTextJob (dateStr envEx t) c ff)).2 := by
  rintro ⟨c, ff, h⟩
  have h2 := congrArg List.length (h initRt 0)
  rw [execJob_text_eq envEx initRt (mkTextJob (dateStr envEx 0) c ff) rfl,
    exec_displayText_len] at h2
  have h4 : (execJob envEx initRt (mkDateJob 0)).2.length = 4 := by decide
  rw [h4] at h2
  exact absurd h2 (by decide)

/-- C5 amended: a `Date` job formats the timestamp as `DD.MM` and is
executed as an `Image` job (not a `Text` job): empty image data, full
panel size, forced full refresh, with the date string drawn as a black
bottom-right overlay over a white box; the runtime settings (including
`currentText`) are untouched. -/
theorem date_executes_as_image (g : Env) (st : RtState) (t : Int) :
    execJob g st (mkDateJob t) =
      exec_drawImage g st
        { EpdJob.base with
          type := .JOB_IMAGE
          width := EPD_WIDTH
          height := EPD_HEIGHT
          format := "empty"
          imageColor := "black"
          forceFull := true
          text := dateStr g t
          time := t } ∧
    (execJob g st (mkDateJob t)).1 = st ∧
    (execJob g st (mkDateJob t)).2 =
      [DrawOp.setFullWindow, DrawOp.fillScreen GxEPD_WHITE,
       DrawOp.fillRect (EPD_WIDTH - g.textW .profont17 (dateStr g t) - 4 - 2)
         (EPD_HEIGHT - 4 - (g.ascent .profont17 - g.descent .profont17) - 2)
         (g.textW .profont17 (dateStr g t) + 4)
         ((g.ascent .profont17 - g.descent .profont17) + 4) GxEPD_WHITE,
       DrawOp.printText (EPD_WIDTH - g.textW .profont17 (dateStr g t) - 4) (EPD_HEIGHT - 4)
         .profont17 GxEPD_BLACK (dateStr g t)] := by
  refine ⟨rfl, rfl, ?_⟩
  unfold execJob
  dsimp only [mkDateJob]
  unfold exec_drawImage
  dsimp only
  rw [if_pos (dateStr_pos g t)]
  simp [exec_image_bw, bwRows]

/-- C6 counterexample: the claim says a 6th `clear()` while 5 jobs are
pending returns `false`; `epd_clear` is `void` in the source, so no
boolean reaches the caller (`none` in the embedding, never
`some false`). -/
theorem clear_returns_no_bool :
    pendingCount sysFull5 = QUEUE_CAPACITY ∧ (epd_clear sysFull5).1 ≠ some false := by
  decide

/-- C6 amended: every enqueue operation is non-blocking, but only
`epd_drawImageFromBitplanes` (and `epd_forceClear_async`) return the
enqueue boolean — `true` exactly when the job entered the queue;
`displayText`, `displayHeader`, `clear`, `forceClear`, `displayDate` and
`displayPage` return nothing (`void`).  On a full queue the offered job
is discarded and the state is left unchanged. -/
theorem enqueue_api_results (s : Sys) (txt : String) (c : Nat) (ff : Bool)
    (w h : Int) (d : List Nat) (fm col : String) (t : Int) (p : EpdPage) :
    (epd_displayText txt c ff s).1 = none ∧
    (epd_displayHeader txt s).1 = none ∧
    (epd_clear s).1 = none ∧
    (epd_forceClear s).1 = none ∧
    (epd_displayDate t s).1 = none ∧
    (epd_displayPage p s).1 = none ∧
    (epd_drawImageFromBitplanes w h d fm col ff s).1 =
      some (decide (pendingCount s < QUEUE_CAPACITY)) ∧
    (epd_forceClear_async s).1 = some (decide (pendingCount s < QUEUE_CAPACITY)) ∧
    (pendingCount s < QUEUE_CAPACITY →
      (epd_drawImageFromBitplanes w h d fm col ff s).2.queue =
        s.queue ++ [mkImageJob w h d fm col ff]) ∧
    (¬ pendingCount s < QUEUE_CAPACITY →
      (epd_drawImageFromBitplanes w h d fm col ff s).2 = s ∧ (epd_clear s).2 = s) := by
  refine ⟨?_, ?_, rfl, rfl, rfl, rfl, ?_, ?_, ?_, ?_⟩
  · unfold epd_displayText; split <;> rfl
  · unfold epd_displayHeader; split <;> rfl
  · by_cases hc : s.queue.length < QUEUE_CAPACITY <;>
      simp [epd_drawImageFromBitplanes, queueJob, pendingCount, hc]
  · by_cases hc : s.queue.length < QUEUE_CAPACITY <;>
      simp [epd_forceClear_async, queueJob, pendingCount, hc]
  · intro hc
    simp only [pendingCount] at hc
    simp [epd_drawImageFromBitplanes, queueJob, hc]
  · intro hc
    simp only [pendingCount] at hc
    simp [epd_drawImageFromBitplanes, epd_clear, queueJob, hc]

/-- Witness for C6 amended at the full-queue state: `clear` returns
nothing, a full-queue image enqueue returns `some false`, and the state
is unchanged. -/
theorem enqueue_api_results_witness :
    (epd_clear sysFull5).1 = none ∧
    (epd_drawImageFromBitplanes 8 1 [255, 255] "bw" "black" true sysFull5).1 = some false ∧
    (epd_clear sysFull5).2 = sysFull5 := by
  obtain ⟨h1, h2, h3, h4, h5, h6, h7, h8, h9, h10⟩ :=
    enqueue_api_results sysFull5 "x" 0 true 8 1 [255, 255] "bw" "black" 0 ⟨"", []⟩
  refine ⟨h3, ?_, (h10 (by decide)).2⟩
  rw [h7]; decide

/-- C7: a `Text` job redraws only the padded clamped bounding rectangle
around the centered text (partial window + rectangle clear) exactly when
partial updates are enabled, the panel supports them and no full refresh
was forced, and performs a full-frame clear-then-draw otherwise; the
job's text is recorded in `currentText`, so in every reachable state
`getCurrentText` is the text of the last executed `Text` job (or the
initial value when none has run). -/
theorem text_exec_behavior (g : Env) :
    (∀ (st : RtState) (job : EpdJob), job.type = EpdJobType.JOB_TEXT →
      (execJob g st job).1 = { st with currentText := job.text } ∧
      ((st.partEnabled && g.hasPartialUpdate && !job.forceFull) = true →
        (execJob g st job).2 =
          [DrawOp.setPartialWindow (textRX g job.text) (textRY g job.text)
             (textRW g job.text) (textRH g job.text),
           DrawOp.fillRect (textRX g job.text) (textRY g job.text)
             (textRW g job.text) (textRH g job.text) GxEPD_WHITE,
           DrawOp.printText (textCX g job.text) (textCY g job.text)
             (textFontSel g job.text) job.color job.text]) ∧
      ((st.partEnabled && g.hasPartialUpdate && !job.forceFull) = false →
        (execJob g st job).2 =
          [DrawOp.setFullWindow, DrawOp.fillScreen GxEPD_WHITE,
           DrawOp.printText (textCX g job.text) (textCY g job.text)
             (textFontSel g job.text) job.color job.text])) ∧
    (∀ s : Sys, Reachable g s →
      epd_getCurrentText s = lastTextD initRt.currentText s.executed) := by
  constructor
  · intro st job hty
    rw [execJob_text_eq g st job hty, exec_displayText_eq]
    refine ⟨rfl, fun hp => ?_, fun hp => ?_⟩ <;> simp [hp]
  · intro s hs
    exact reachable_currentText hs

/-- Witness for C7: the partial path on a concrete `"Hello"` job with
partial updates enabled, and the `currentText` invariant at `sysRun1`. -/
theorem text_exec_behavior_witness :
    (execJob envEx { currentText := "x", partEnabled := true }
        (mkTextJob "Hello" 123 false)).1 =
      { currentText := "Hello", partEnabled := true } ∧
    (execJob envEx { currentText := "x", partEnabled := true }
        (mkTextJob "Hello" 123 false)).2 =
      [DrawOp.setPartialWindow (textRX envEx "Hello") (textRY envEx "Hello")
         (textRW envEx "Hello") (textRH envEx "Hello"),
       DrawOp.fillRect (textRX envEx "Hello") (textRY envEx "Hello")
         (textRW envEx "Hello") (textRH envEx "Hello") GxEPD_WHITE,
       DrawOp.printText (textCX envEx "Hello") (textCY envEx "Hello")
         (textFontSel envEx "Hello") 123 "Hello"] ∧
    epd_getCurrentText sysRun1 = lastTextD initRt.currentText sysRun1.executed := by
  obtain ⟨h1, h2⟩ := text_exec_behavior envEx
  obtain ⟨ha, hb, hc⟩ := h1 { currentText := "x", partEnabled := true }
    (mkTextJob "Hello" 123 false) rfl
  exact ⟨ha, hb (by decide), h2 sysRun1 (reach_sysRun1 envEx)⟩

/-- C8: page composition truncates rather than errors — rendering a page
produces exactly the same operations as rendering the page restricted to
the prefix of components the cursor budget admits (`fitComps`), and that
restriction is a prefix of the original component list, so components
past the cut-off contribute nothing. -/
theorem page_truncation (g : Env) (st : RtState) (p : EpdPage) :
    execJob g st (mkPageJob p) =
      execJob g st (mkPageJob
        { title := p.title
          components := fitComps g (pageStartY g p.title) p.components }) ∧
    ∃ rest, fitComps g (pageStartY g p.title) p.components ++ rest = p.components := by
  refine ⟨?_, fitComps_prefix g (pageStartY g p.title) p.components⟩
  show exec_displayPage g st (mkPageJob p) =
    exec_displayPage g st (mkPageJob
      { title := p.title
        components := fitComps g (pageStartY g p.title) p.components })
  unfold exec_displayPage
  dsimp only [mkPageJob]
  rw [renderComps_fit]

/-- C9: for a bw image with positive dimensions whose buffer holds at
least `ceil(width/8) * height` bytes, every access of the pixel loop is
in bounds: the bounds-checked rendering succeeds and agrees with the raw
one. -/
theorem bw_loop_inbounds (w h : Int) (img : List Nat) (rx ry : Int)
    (hw : 0 < w) (hh : 0 < h)
    (hlen : (Int.tdiv (w + 7) 8).toNat * h.toNat ≤ img.length) :
    exec_image_bwChecked w h img rx ry = some (exec_image_bw w h img rx ry) := by
  unfold exec_image_bwChecked exec_image_bw
  dsimp only
  apply bwRowsChecked_some
  intro y hy x hx
  rw [List.mem_range] at hy hx
  have hcast : w + 7 = ((w.toNat + 7 : Nat) : Int) := by omega
  have hbpr8 : (Int.tdiv (w + 7) 8).toNat = (w.toNat + 7) / 8 := by rw [hcast]; rfl
  rw [hbpr8] at hlen ⊢
  have hwn : 0 < w.toNat := by omega
  have h1 : x / 8 < (w.toNat + 7) / 8 := by omega
  have h2 : y + 1 ≤ h.toNat := hy
  calc y * ((w.toNat + 7) / 8) + x / 8
      < y * ((w.toNat + 7) / 8) + (w.toNat + 7) / 8 := by omega
    _ = (y + 1) * ((w.toNat + 7) / 8) := by ring
    _ ≤ h.toNat * ((w.toNat + 7) / 8) := Nat.mul_le_mul_right _ h2
    _ = ((w.toNat + 7) / 8) * h.toNat := Nat.mul_comm _ _
    _ ≤ img.length := hlen

/-- Witness for C9 on an 8x1 image with a single full byte. -/
theorem bw_loop_inbounds_witness :
    exec_image_bwChecked 8 1 [255] 0 0 = some (exec_image_bw 8 1 [255] 0 0) :=
  bw_loop_inbounds 8 1 [255] 0 0 (by decide) (by decide) (by decide)

/-- C10: calling `displayText` or `displayHeader` with an empty string
is a complete no-op: no job is built or enqueued, and the system state —
pending count, busy flag, current text — is untouched. -/
theorem empty_text_noop (c : Nat) (ff : Bool) (s : Sys) :
    epd_displayText "" c ff s = (none, s) ∧
    epd_displayHeader "" s = (none, s) ∧
    pendingCount (epd_displayText "" c ff s).2 = pendingCount s ∧
    epd_isBusy (epd_displayText "" c ff s).2 = epd_isBusy s ∧
    epd_getCurrentText (epd_displayText "" c ff s).2 = epd_getCurrentText s := by
  simp [epd_displayText, epd_displayHeader]

end Bringer
